import Mathlib

/-!
# Verification of the rio-controller strobe firmware timing core

Shallow embedding of `src/firmware/strobe-pic/main_hardware_trigger.c` and
`src/module-strobe-imaging/strobe_pic/interrupt_manager_hardware_trigger.c`.

Machine integers are modelled as `Nat`; the two places where the C code relies
on fixed-width wraparound are modelled explicitly:
* `labs( time_ns_loop - target_time_ns )` subtracts two `uint32_t` values and
  reinterprets the result as a signed 32-bit `long` (XC8 `long` is 32 bits),
  modelled by `labsDiff`;
* the output-parameter stores `*postscale = postscale_best - 1` (8-bit
  wraparound) and `*period = (uint8_t)( period_best - 1 )` (32-bit subtraction
  then truncation to 8 bits).

All other intermediate values in the firmware provably stay below `2^32`
(targets are capped at `MAX_TIME_NS = 16320000`, so `target * 100 + 1562 <
2^31` and the back-conversion product is at most `400000 * 255 * 16 =
1632000000 < 2^31`), hence plain `Nat` arithmetic coincides with the C
`uint32_t` arithmetic there.
-/

set_option maxRecDepth 100000

namespace Rio

/-! ## Strobe constants (main_hardware_trigger.c lines 28-31) -/

def CLOCK_FREQ : ℕ := 32000000

/-- `#define PS_PER_TICK ( 1000000000 / ( CLOCK_FREQ / 1000 ) )` = 31250 ps/tick -/
def PS_PER_TICK : ℕ := 1000000000 / (CLOCK_FREQ / 1000)

/-- `#define TIME_SCALING 10` -/
def TIME_SCALING : ℕ := 10

/-- `#define MAX_TIME_NS ( ( ( (uint32_t)PS_PER_TICK << 7 ) / 1000 ) * 16 * 255 )` -/
def MAX_TIME_NS : ℕ := ((PS_PER_TICK <<< 7) / 1000) * 16 * 255

/-! ## 32-bit wraparound helpers -/

/-- Wrap to `uint32_t`. -/
def u32 (n : ℕ) : ℕ := n % 4294967296

/-- `uint32_t` subtraction `a - b` (modular). -/
def u32sub (a b : ℕ) : ℕ := (u32 a + (4294967296 - u32 b)) % 4294967296

/-- Reinterpret a `uint32_t` bit pattern as a signed 32-bit integer
(two's complement), as the XC8 conversion to 32-bit `long` does. -/
def toInt32 (n : ℕ) : ℤ :=
  if u32 n < 2147483648 then (u32 n : ℤ) else (u32 n : ℤ) - 4294967296

/-- `labs( a - b )` where `a - b` is computed in `uint32_t` and then passed to
`labs` taking a 32-bit `long`. -/
def labsDiff (a b : ℕ) : ℕ := (toInt32 (u32sub a b)).natAbs

/-! ## find_scalers_time (main_hardware_trigger.c lines 61-118) -/

/-- The accumulator of the divider search: `time_ns_best`, `postscale_best`,
`prescale_best`, `period_best` (lines 79-82 initialize all four to zero). -/
structure ScalerState where
  time_ns_best : ℕ
  postscale_best : ℕ
  prescale_best : ℕ
  period_best : ℕ
deriving Repr, DecidableEq

/-- Initial accumulator (lines 79-82). -/
def initScaler : ScalerState := ⟨0, 0, 0, 0⟩

/-- `ticks = ( target_time_ns * ( 1000 / TIME_SCALING ) + ( ( PS_PER_TICK >> 1 ) / TIME_SCALING ) ) / ( PS_PER_TICK / TIME_SCALING )` (line 77). -/
def tickCount (target_time_ns : ℕ) : ℕ :=
  (target_time_ns * (1000 / TIME_SCALING) + (PS_PER_TICK >>> 1) / TIME_SCALING)
    / (PS_PER_TICK / TIME_SCALING)

/-- The implied period register value for a prescale (lines 90-93):
`rem` for prescale 0, otherwise `( ( rem >> ( prescale_loop - 1 ) ) + 1 ) >> 1`
(round to nearest). -/
def periodFor (rem p : ℕ) : ℕ :=
  if p = 0 then rem else ((rem >>> (p - 1)) + 1) >>> 1

/-- The validity test of line 95:
`( period_loop > 0 ) && ( period_loop <= 0xFF ) && ( ( period_loop > 1 ) || ( prescale_loop > 0 ) )`. -/
def periodOk (per p : ℕ) : Prop := 0 < per ∧ per ≤ 255 ∧ (1 < per ∨ 0 < p)

instance (per p : ℕ) : Decidable (periodOk per p) := by
  unfold periodOk; infer_instance

/-- Back-converted achieved time of a combination (line 97):
`( ( ( ( (uint32_t)PS_PER_TICK / TIME_SCALING ) << prescale_loop ) * period_loop ) * postscale_loop ) / ( 1000 / TIME_SCALING )`. -/
def timeFor (p per post : ℕ) : ℕ :=
  ((PS_PER_TICK / TIME_SCALING) <<< p) * per * post / (1000 / TIME_SCALING)

/-- One iteration of the inner prescale loop body (lines 88-110).  The `Bool`
component models the `break` of line 108: once it is set the remaining inner
iterations do nothing. -/
def stepScaler (target ticks post : ℕ) (acc : ScalerState × Bool) (p : ℕ) :
    ScalerState × Bool :=
  if acc.2 then acc
  else
    let rem := ticks / post
    let per := periodFor rem p
    if periodOk per p then
      let t := timeFor p per post
      let s :=
        if labsDiff t target < labsDiff acc.1.time_ns_best target then
          ⟨t, post, p, per⟩
        else acc.1
      (s, decide (t = target))
    else acc

/-- The inner loop order `for ( prescale_loop=7; prescale_loop>=0; prescale_loop-- )`. -/
def prescaleList : List ℕ := [7, 6, 5, 4, 3, 2, 1, 0]

/-- The outer loop order `for ( postscale_loop=16; postscale_loop>=1; postscale_loop-- )`. -/
def postscaleList : List ℕ :=
  [16, 15, 14, 13, 12, 11, 10, 9, 8, 7, 6, 5, 4, 3, 2, 1]

/-- The inner prescale loop (lines 88-110); the `break` flag is reset at entry
because `break` in C only leaves the inner `for`. -/
def innerScaler (target ticks post : ℕ) (s : ScalerState) : ScalerState :=
  (prescaleList.foldl (stepScaler target ticks post) (s, false)).1

/-- The full nested search loop (lines 84-111). -/
def searchScalers (target ticks : ℕ) : ScalerState :=
  postscaleList.foldl (fun s post => innerScaler target ticks post s) initScaler

/-- `find_scalers_time` (lines 61-118).  Returns the achieved time together
with the values stored through the output pointers; `none` models the early
`return 0` of line 75, which leaves the output parameters unwritten.
The stores of lines 113-115 are
`*prescale = prescale_best`,
`*postscale = postscale_best - 1` (8-bit wraparound) and
`*period = (uint8_t)( period_best - 1 )` (32-bit subtraction truncated to 8 bits). -/
def find_scalers_time (target_time_ns : ℕ) : ℕ × Option (ℕ × ℕ × ℕ) :=
  if target_time_ns > MAX_TIME_NS then (0, none)
  else
    let s := searchScalers target_time_ns (tickCount target_time_ns)
    (s.time_ns_best,
      some (s.prescale_best, (s.postscale_best + 255) % 256,
        (s.period_best + 4294967295) % 4294967296 % 256))

/-! ## The candidate set the search draws from

`candTriples ticks` lists, in search order, the `(prescale, period, postscale)`
combinations whose period the search derives (one period per
(postscale, prescale) pair, by the two-step rounding of lines 86 and 90-93)
and that pass the validity test of line 95. -/

def candTriples (ticks : ℕ) : List (ℕ × ℕ × ℕ) :=
  postscaleList.flatMap fun post =>
    prescaleList.filterMap fun p =>
      let per := periodFor (ticks / post) p
      if periodOk per p then some (p, per, post) else none

/-- A valid combination of the full divider search space described by the
spec: prescale 0-7, period count 1-255, postscale count 1-16, with the
hardware-disallowed case (period 1 with zero prescale) excluded. -/
def validCombo (p per post : ℕ) : Prop :=
  p ≤ 7 ∧ 1 ≤ per ∧ per ≤ 255 ∧ 1 ≤ post ∧ post ≤ 16 ∧ (1 < per ∨ 0 < p)

instance (p per post : ℕ) : Decidable (validCombo p per post) := by
  unfold validCombo; infer_instance

example : MAX_TIME_NS = 16320000 := by decide
example : PS_PER_TICK = 31250 := by decide
example : tickCount 78 = 2 := by decide
example : (find_scalers_time 78).1 = 62 := by decide
example : find_scalers_time 0 = (0, some (0, 255, 255)) := by decide
example : (find_scalers_time 1000000).1 = 1000000 := by decide

/-! ## Invariants of the search loop -/

lemma labsDiff_self (a : ℕ) : labsDiff a a = 0 := by
  have h : u32sub a a = 0 := by
    unfold u32sub
    have : u32 a < 4294967296 := Nat.mod_lt _ (by norm_num)
    omega
  simp [labsDiff, h, toInt32, u32]

/-- One step never increases the best error. -/
lemma stepScaler_err_le (target ticks post : ℕ) (acc : ScalerState × Bool)
    (p : ℕ) :
    labsDiff (stepScaler target ticks post acc p).1.time_ns_best target ≤
      labsDiff acc.1.time_ns_best target := by
  unfold stepScaler
  split
  · exact le_refl _
  · dsimp only
    split
    · split
      · exact le_of_lt (by assumption)
      · exact le_refl _
    · exact le_refl _

/-- After a step on a valid combination, the best error is at most that
combination's error. -/
lemma stepScaler_err_bound (target ticks post : ℕ) (acc : ScalerState × Bool)
    (p : ℕ) (hb : acc.2 = false)
    (hv : periodOk (periodFor (ticks / post) p) p) :
    labsDiff (stepScaler target ticks post acc p).1.time_ns_best target ≤
      labsDiff (timeFor p (periodFor (ticks / post) p) post) target := by
  unfold stepScaler
  rw [hb]
  simp only [Bool.false_eq_true, if_false, if_pos hv]
  split
  · exact le_refl _
  · exact le_of_not_lt (by assumption)

/-- If a step raises the break flag, the best error has reached zero. -/
lemma stepScaler_break (target ticks post : ℕ) (acc : ScalerState × Bool)
    (p : ℕ) (hb : acc.2 = false)
    (hbr : (stepScaler target ticks post acc p).2 = true) :
    labsDiff (stepScaler target ticks post acc p).1.time_ns_best target = 0 := by
  unfold stepScaler at hbr ⊢
  rw [hb] at hbr ⊢
  simp only [Bool.false_eq_true, if_false] at hbr ⊢
  by_cases hv : periodOk (periodFor (ticks / post) p) p
  · rw [if_pos hv] at hbr ⊢
    simp only [decide_eq_true_eq] at hbr
    by_cases hcmp :
        labsDiff (timeFor p (periodFor (ticks / post) p) post) target <
          labsDiff acc.1.time_ns_best target
    · simp only [if_pos hcmp]
      rw [hbr, labsDiff_self]
    · simp only [if_neg hcmp]
      have h0 : labsDiff (timeFor p (periodFor (ticks / post) p) post) target = 0 := by
        rw [hbr, labsDiff_self]
      omega
  · rw [if_neg hv] at hbr
    simp [hb] at hbr

/-- A step either keeps the accumulator or replaces it by a visited valid
combination. -/
lemma stepScaler_shape (target ticks post : ℕ) (acc : ScalerState × Bool)
    (p : ℕ) :
    (stepScaler target ticks post acc p).1 = acc.1 ∨
      (periodOk (periodFor (ticks / post) p) p ∧
        (stepScaler target ticks post acc p).1 =
          ⟨timeFor p (periodFor (ticks / post) p) post, post, p,
            periodFor (ticks / post) p⟩) := by
  unfold stepScaler
  split
  · exact Or.inl rfl
  · dsimp only
    split
    · split
      · exact Or.inr ⟨by assumption, rfl⟩
      · exact Or.inl rfl
    · exact Or.inl rfl

/-- Once the break flag is set, the rest of the inner loop does nothing. -/
lemma foldl_stepScaler_frozen (target ticks post : ℕ) (ps : List ℕ)
    (s : ScalerState) :
    ps.foldl (stepScaler target ticks post) (s, true) = (s, true) := by
  induction ps with
  | nil => rfl
  | cons q rest ih =>
      have h : stepScaler target ticks post (s, true) q = (s, true) := by
        simp [stepScaler]
      rw [List.foldl_cons, h, ih]

/-- The inner fold never increases the best error. -/
lemma foldl_stepScaler_err_le (target ticks post : ℕ) (ps : List ℕ) :
    ∀ acc : ScalerState × Bool,
      labsDiff (ps.foldl (stepScaler target ticks post) acc).1.time_ns_best
          target ≤
        labsDiff acc.1.time_ns_best target := by
  induction ps with
  | nil => intro acc; exact le_refl _
  | cons q rest ih =>
      intro acc
      rw [List.foldl_cons]
      exact le_trans (ih _) (stepScaler_err_le target ticks post acc q)

/-- The inner fold's best error is bounded by the error of every valid
combination it ranges over. -/
lemma foldl_stepScaler_err_bound (target ticks post : ℕ) (ps : List ℕ) :
    ∀ acc : ScalerState × Bool, acc.2 = false →
      ∀ p ∈ ps, periodOk (periodFor (ticks / post) p) p →
        labsDiff (ps.foldl (stepScaler target ticks post) acc).1.time_ns_best
            target ≤
          labsDiff (timeFor p (periodFor (ticks / post) p) post) target := by
  induction ps with
  | nil => intro acc _ p hp; exact absurd hp (List.not_mem_nil p)
  | cons q rest ih =>
      intro acc hb p hp hv
      rw [List.foldl_cons]
      rcases List.mem_cons.mp hp with rfl | hp'
      · exact le_trans (foldl_stepScaler_err_le target ticks post rest _)
          (stepScaler_err_bound target ticks post acc p hb hv)
      · cases hbq : (stepScaler target ticks post acc q).2 with
        | true =>
            have h0 := stepScaler_break target ticks post acc q hb hbq
            have heq : stepScaler target ticks post acc q =
                ((stepScaler target ticks post acc q).1, true) := by
              rw [← hbq]
            rw [heq,
              foldl_stepScaler_frozen target ticks post rest
                (stepScaler target ticks post acc q).1]
            simp only [h0]
            exact Nat.zero_le _
        | false =>
            have heq : stepScaler target ticks post acc q =
                ((stepScaler target ticks post acc q).1, false) := by
              rw [← hbq]
            rw [heq]
            exact ih _ rfl p hp' hv

/-- The inner fold either keeps the accumulator state or ends on one of the
valid combinations it ranges over. -/
lemma foldl_stepScaler_shape (target ticks post : ℕ) (ps : List ℕ) :
    ∀ acc : ScalerState × Bool,
      (ps.foldl (stepScaler target ticks post) acc).1 = acc.1 ∨
        ∃ p ∈ ps, periodOk (periodFor (ticks / post) p) p ∧
          (ps.foldl (stepScaler target ticks post) acc).1 =
            ⟨timeFor p (periodFor (ticks / post) p) post, post, p,
              periodFor (ticks / post) p⟩ := by
  induction ps with
  | nil => intro acc; exact Or.inl rfl
  | cons q rest ih =>
      intro acc
      rw [List.foldl_cons]
      rcases ih (stepScaler target ticks post acc q) with h | ⟨p, hp, hv, h⟩
      · rcases stepScaler_shape target ticks post acc q with h' | ⟨hv, h'⟩
        · exact Or.inl (h.trans h')
        · exact Or.inr ⟨q, List.mem_cons_self q rest, hv, h.trans h'⟩
      · exact Or.inr ⟨p, List.mem_cons_of_mem q hp, hv, h⟩

/-- The outer fold never increases the best error. -/
lemma foldl_inner_err_le (target ticks : ℕ) (posts : List ℕ) :
    ∀ s : ScalerState,
      labsDiff
          ((posts.foldl (fun s post => innerScaler target ticks post s)
            s).time_ns_best) target ≤
        labsDiff s.time_ns_best target := by
  induction posts with
  | nil => intro s; exact le_refl _
  | cons q rest ih =>
      intro s
      rw [List.foldl_cons]
      exact le_trans (ih _)
        (foldl_stepScaler_err_le target ticks q prescaleList (s, false))

/-- The outer fold's best error is bounded by the error of every valid
derived combination of every (postscale, prescale) pair it ranges over. -/
lemma foldl_inner_err_bound (target ticks : ℕ) (posts : List ℕ) :
    ∀ s : ScalerState, ∀ post ∈ posts, ∀ p ∈ prescaleList,
      periodOk (periodFor (ticks / post) p) p →
        labsDiff
            ((posts.foldl (fun s post => innerScaler target ticks post s)
              s).time_ns_best) target ≤
          labsDiff (timeFor p (periodFor (ticks / post) p) post) target := by
  induction posts with
  | nil => intro s post hpost; exact absurd hpost (List.not_mem_nil post)
  | cons q rest ih =>
      intro s post hpost p hp hv
      rw [List.foldl_cons]
      rcases List.mem_cons.mp hpost with rfl | hpost'
      · exact le_trans (foldl_inner_err_le target ticks rest _)
          (foldl_stepScaler_err_bound target ticks post prescaleList
            (s, false) rfl p hp hv)
      · exact ih _ post hpost' p hp hv

/-- The outer fold either keeps the initial state or ends on a valid derived
combination of one of the pairs it ranges over. -/
lemma foldl_inner_shape (target ticks : ℕ) (posts : List ℕ) :
    ∀ s : ScalerState,
      posts.foldl (fun s post => innerScaler target ticks post s) s = s ∨
        ∃ post ∈ posts, ∃ p ∈ prescaleList,
          periodOk (periodFor (ticks / post) p) p ∧
            posts.foldl (fun s post => innerScaler target ticks post s) s =
              ⟨timeFor p (periodFor (ticks / post) p) post, post, p,
                periodFor (ticks / post) p⟩ := by
  induction posts with
  | nil => intro s; exact Or.inl rfl
  | cons q rest ih =>
      intro s
      rw [List.foldl_cons]
      rcases ih (innerScaler target ticks q s) with h | ⟨post, hpost, p, hp, hv, h⟩
      · rcases foldl_stepScaler_shape target ticks q prescaleList (s, false)
          with h' | ⟨p, hp, hv, h'⟩
        · exact Or.inl (h.trans h')
        · exact Or.inr ⟨q, List.mem_cons_self q rest, p, hp, hv, h.trans h'⟩
      · exact Or.inr ⟨post, List.mem_cons_of_mem q hpost, p, hp, hv, h⟩

/-- Membership in the derived candidate list. -/
lemma mem_candTriples (ticks : ℕ) (c : ℕ × ℕ × ℕ) :
    c ∈ candTriples ticks ↔
      ∃ post ∈ postscaleList, ∃ p ∈ prescaleList,
        periodOk (periodFor (ticks / post) p) p ∧
          c = (p, periodFor (ticks / post) p, post) := by
  unfold candTriples
  rw [List.mem_flatMap]
  constructor
  · rintro ⟨post, hpost, hmem⟩
    rw [List.mem_filterMap] at hmem
    obtain ⟨p, hp, heq⟩ := hmem
    dsimp only at heq
    by_cases hv : periodOk (periodFor (ticks / post) p) p
    · rw [if_pos hv] at heq
      exact ⟨post, hpost, p, hp, hv, (Option.some.inj heq).symm⟩
    · rw [if_neg hv] at heq
      cases heq
  · rintro ⟨post, hpost, p, hp, hv, rfl⟩
    refine ⟨post, hpost, List.mem_filterMap.mpr ⟨p, hp, ?_⟩⟩
    dsimp only
    rw [if_pos hv]

lemma mem_postscaleList_bounds {post : ℕ} (h : post ∈ postscaleList) :
    1 ≤ post ∧ post ≤ 16 := by
  simp [postscaleList] at h
  omega

lemma mem_prescaleList_le {p : ℕ} (h : p ∈ prescaleList) : p ≤ 7 := by
  simp [prescaleList] at h
  omega

/-- `labs( 0 - t )` in 32-bit arithmetic is `t` for `t` below `2^31`
(the value the best-error comparison starts from, since `time_ns_best`
is initialized to zero). -/
lemma labsDiff_zero_left (t : ℕ) (ht : t < 2147483648) : labsDiff 0 t = t := by
  have hmod : u32sub 0 t = (4294967296 - t) % 4294967296 := by
    unfold u32sub u32
    omega
  show (toInt32 (u32sub 0 t)).natAbs = t
  rw [hmod]
  unfold toInt32 u32
  rcases Nat.eq_zero_or_pos t with rfl | hpos
  · norm_num
  · have h1 : (4294967296 - t) % 4294967296 = 4294967296 - t := by omega
    have h2 : (4294967296 - t) % 4294967296 % 4294967296 = 4294967296 - t := by
      omega
    rw [h2, if_neg (by omega)]
    have : ((4294967296 - t : ℕ) : ℤ) = 4294967296 - (t : ℤ) := by
      omega
    rw [this]
    have : (4294967296 - (t : ℤ)) - 4294967296 = -(t : ℤ) := by ring
    rw [this]
    simp

/-- For in-range targets, `find_scalers_time` runs the nested search and the
achieved value is the search's best. -/
lemma find_scalers_time_in_range (target : ℕ) (ht : target ≤ MAX_TIME_NS) :
    find_scalers_time target =
      ((searchScalers target (tickCount target)).time_ns_best,
        some ((searchScalers target (tickCount target)).prescale_best,
          ((searchScalers target (tickCount target)).postscale_best + 255) % 256,
          ((searchScalers target (tickCount target)).period_best + 4294967295) %
            4294967296 % 256)) := by
  rw [find_scalers_time, if_neg (not_lt.mpr ht)]

/-! ## Claim C1 -/

/-- C1, counterexample: the claim says that for every in-range target the
returned `achieved_ns` is the closest reachable back-converted time among all
valid (prescale, period, postscale) combinations.  At `target_ns = 78` the
function returns 62 (distance 16), but the valid combination prescale 0,
period count 3, postscale 1 back-converts to 93 (distance 15), strictly
closer.  (`labsDiff` is the 32-bit `labs` error measure the code itself
uses.) -/
theorem find_scalers_time_not_closest_at_78 :
    78 ≤ MAX_TIME_NS ∧
      (find_scalers_time 78).1 = 62 ∧
      validCombo 0 3 1 ∧
      timeFor 0 3 1 = 93 ∧
      labsDiff (timeFor 0 3 1) 78 < labsDiff (find_scalers_time 78).1 78 := by
  refine ⟨by decide, by decide, by decide, by decide, by decide⟩

/-- C1 (amended): for every `target_ns ≤ MAX_TIME_NS`, the achieved value is
at least as close to the target as every combination the search actually
derives (one period per (postscale, prescale) pair, computed by the truncated
division of line 86 followed by the rounding shift of line 93), each such
combination is a valid combination of the full search space, and the achieved
value is either zero or the back-converted time of one of those derived
combinations; it is nonzero as soon as some derived combination's error beats
the zero baseline.  It is NOT always the closest reachable value over the
full space (see the counterexample at 78): the two-step rounding can miss the
globally closest combination, and for targets below 32 ns every derived
period is 0 or loses the strict comparison against the zero baseline, so 0 is
returned. -/
theorem find_scalers_time_best_over_derived (target : ℕ)
    (ht : target ≤ MAX_TIME_NS) :
    (∀ c ∈ candTriples (tickCount target),
        labsDiff (find_scalers_time target).1 target ≤
          labsDiff (timeFor c.1 c.2.1 c.2.2) target) ∧
      (∀ c ∈ candTriples (tickCount target), validCombo c.1 c.2.1 c.2.2) ∧
      ((find_scalers_time target).1 = 0 ∨
        ∃ c ∈ candTriples (tickCount target),
          (find_scalers_time target).1 = timeFor c.1 c.2.1 c.2.2) ∧
      ((∃ c ∈ candTriples (tickCount target),
          labsDiff (timeFor c.1 c.2.1 c.2.2) target < target) →
        0 < (find_scalers_time target).1) := by
  have hfst : (find_scalers_time target).1 =
      (searchScalers target (tickCount target)).time_ns_best := by
    rw [find_scalers_time_in_range target ht]
  have hbound : ∀ c ∈ candTriples (tickCount target),
      labsDiff (find_scalers_time target).1 target ≤
        labsDiff (timeFor c.1 c.2.1 c.2.2) target := by
    intro c hc
    rw [mem_candTriples] at hc
    obtain ⟨post, hpost, p, hp, hv, rfl⟩ := hc
    rw [hfst]
    exact foldl_inner_err_bound target (tickCount target) postscaleList
      initScaler post hpost p hp hv
  refine ⟨hbound, ?_, ?_, ?_⟩
  · intro c hc
    rw [mem_candTriples] at hc
    obtain ⟨post, hpost, p, hp, hv, rfl⟩ := hc
    obtain ⟨hv1, hv2, hv3⟩ := hv
    obtain ⟨hpost1, hpost2⟩ := mem_postscaleList_bounds hpost
    exact ⟨mem_prescaleList_le hp, hv1, hv2, hpost1, hpost2, hv3⟩
  · rcases foldl_inner_shape target (tickCount target) postscaleList initScaler
      with h | ⟨post, hpost, p, hp, hv, h⟩
    · left
      rw [hfst]
      show (searchScalers target (tickCount target)).time_ns_best = 0
      rw [show searchScalers target (tickCount target) =
        postscaleList.foldl
          (fun s post => innerScaler target (tickCount target) post s)
          initScaler from rfl, h]
      rfl
    · right
      refine ⟨(p, periodFor (tickCount target / post) p, post),
        (mem_candTriples _ _).mpr ⟨post, hpost, p, hp, hv, rfl⟩, ?_⟩
      rw [hfst]
      show (searchScalers target (tickCount target)).time_ns_best = _
      rw [show searchScalers target (tickCount target) =
        postscaleList.foldl
          (fun s post => innerScaler target (tickCount target) post s)
          initScaler from rfl, h]
  · rintro ⟨c, hc, hlt⟩
    by_contra hzero
    have h0 : (find_scalers_time target).1 = 0 := by omega
    have := hbound c hc
    rw [h0, labsDiff_zero_left target (by
      have : MAX_TIME_NS = 16320000 := by decide
      omega)] at this
    omega

/-- C1, witness: the amended optimality statement at target 1000000 ns. -/
theorem find_scalers_time_best_over_derived_witness :
    1000000 ≤ MAX_TIME_NS ∧
      ((∀ c ∈ candTriples (tickCount 1000000),
          labsDiff (find_scalers_time 1000000).1 1000000 ≤
            labsDiff (timeFor c.1 c.2.1 c.2.2) 1000000) ∧
        (∀ c ∈ candTriples (tickCount 1000000), validCombo c.1 c.2.1 c.2.2) ∧
        ((find_scalers_time 1000000).1 = 0 ∨
          ∃ c ∈ candTriples (tickCount 1000000),
            (find_scalers_time 1000000).1 = timeFor c.1 c.2.1 c.2.2) ∧
        ((∃ c ∈ candTriples (tickCount 1000000),
            labsDiff (timeFor c.1 c.2.1 c.2.2) 1000000 < 1000000) →
          0 < (find_scalers_time 1000000).1)) :=
  ⟨by decide, find_scalers_time_best_over_derived 1000000 (by decide)⟩

/-! ## Claim C2 -/

/-- C2, counterexample: the claim defines the maximum representable interval
as clock-tick period × 2^7 × 256 × 16 = 16384000 ns and says the function
proceeds with the search for every target at or below it.  But the code's
`MAX_TIME_NS` is built from the largest period register value 255, not the
256 counts it stands for, so at target 16384000 (which is at the claim's
limit) the function takes the early `return 0` and never writes its output
parameters. -/
theorem find_scalers_time_rejects_claimed_max :
    PS_PER_TICK * 2 ^ 7 * 256 * 16 / 1000 = 16384000 ∧
      MAX_TIME_NS < 16384000 ∧
      find_scalers_time 16384000 = (0, none) := by
  refine ⟨by decide, by decide, by decide⟩

/-- C2 (amended): the cutoff the code enforces is
`MAX_TIME_NS = (clock-tick period in ps × 2^7 / 1000) × 16 × 255 = 16320000`
ns — the factor is 255 (the largest value the derived period may take), not
256.  For every target strictly above it the function returns achieved 0 and
leaves the output dividers unwritten (`none`); for every target at or below
it the search runs and the outputs are written. -/
theorem find_scalers_time_range_check (target : ℕ) :
    (MAX_TIME_NS < target → find_scalers_time target = (0, none)) ∧
      (target ≤ MAX_TIME_NS → ((find_scalers_time target).2).isSome = true) ∧
      MAX_TIME_NS = PS_PER_TICK * 2 ^ 7 * 255 * 16 / 1000 := by
  refine ⟨?_, ?_, by decide⟩
  · intro h
    rw [find_scalers_time, if_pos h]
  · intro h
    rw [find_scalers_time_in_range target h]
    rfl

/-- C2, witness: target 16320001 is one past the code's cutoff and is
rejected with no output writes. -/
theorem find_scalers_time_range_check_witness :
    MAX_TIME_NS < 16320001 ∧ find_scalers_time 16320001 = (0, none) :=
  ⟨by decide, (find_scalers_time_range_check 16320001).1 (by decide)⟩

/-! ## Claim C4 -/

/-- C4: whenever an in-range target yields a nonzero achieved time, the
achieved time equals the back-conversion of the stored divider triple:
`tick_period_ns × 2^prescale × (period+1) × (postscale+1)` computed exactly
as the code does (31.25 ns per tick appears as `PS_PER_TICK = 31250` ps with
the final division by 1000, equivalently `3125/100`), with prescale in 0-7,
stored postscale (count − 1) in 0-15, and stored period in 0-255. -/
theorem find_scalers_time_reproducible (target : ℕ)
    (ht : target ≤ MAX_TIME_NS) (hpos : 0 < (find_scalers_time target).1) :
    ∃ pre post per,
      (find_scalers_time target).2 = some (pre, post, per) ∧
      (find_scalers_time target).1 = timeFor pre (per + 1) (post + 1) ∧
      (find_scalers_time target).1 =
        PS_PER_TICK * 2 ^ pre * (per + 1) * (post + 1) / 1000 ∧
      pre ≤ 7 ∧ post ≤ 15 ∧ per ≤ 255 ∧
      validCombo pre (per + 1) (post + 1) := by
  have hfind := find_scalers_time_in_range target ht
  rcases foldl_inner_shape target (tickCount target) postscaleList initScaler
    with h | ⟨post, hpost, p, hp, hv, h⟩
  · exfalso
    have : (find_scalers_time target).1 = 0 := by
      rw [hfind]
      show (searchScalers target (tickCount target)).time_ns_best = 0
      rw [show searchScalers target (tickCount target) =
        postscaleList.foldl
          (fun s post => innerScaler target (tickCount target) post s)
          initScaler from rfl, h]
      rfl
    omega
  · have hsearch : searchScalers target (tickCount target) =
        ⟨timeFor p (periodFor (tickCount target / post) p) post, post, p,
          periodFor (tickCount target / post) p⟩ := h
    obtain ⟨hper1, hper2, hper3⟩ := hv
    obtain ⟨hpost1, hpost2⟩ := mem_postscaleList_bounds hpost
    have hple := mem_prescaleList_le hp
    refine ⟨p, post - 1, periodFor (tickCount target / post) p - 1, ?_, ?_, ?_,
      hple, by omega, by omega, ?_⟩
    · rw [hfind, hsearch]
      have e1 : (post + 255) % 256 = post - 1 := by omega
      have e2 : (periodFor (tickCount target / post) p + 4294967295) %
          4294967296 % 256 = periodFor (tickCount target / post) p - 1 := by
        omega
      simp only [e1, e2]
    · rw [hfind, hsearch]
      have e3 : periodFor (tickCount target / post) p - 1 + 1 =
          periodFor (tickCount target / post) p := by omega
      have e4 : post - 1 + 1 = post := by omega
      rw [e3, e4]
    · rw [hfind, hsearch]
      have e3 : periodFor (tickCount target / post) p - 1 + 1 =
          periodFor (tickCount target / post) p := by omega
      have e4 : post - 1 + 1 = post := by omega
      rw [e3, e4]
      show timeFor p (periodFor (tickCount target / post) p) post = _
      unfold timeFor
      rw [Nat.shiftLeft_eq]
      have hps : PS_PER_TICK = 31250 := by decide
      have hts : (1000 : ℕ) / TIME_SCALING = 100 := by decide
      have hd : PS_PER_TICK / TIME_SCALING = 3125 := by decide
      rw [hd, hts, hps]
      have hrw : 31250 * 2 ^ p * periodFor (tickCount target / post) p * post =
          10 * (3125 * 2 ^ p * periodFor (tickCount target / post) p * post) := by
        ring
      rw [hrw, show (1000 : ℕ) = 10 * 100 from rfl,
        Nat.mul_div_mul_left _ _ (by norm_num)]
    · have e3 : periodFor (tickCount target / post) p - 1 + 1 =
          periodFor (tickCount target / post) p := by omega
      have e4 : post - 1 + 1 = post := by omega
      rw [e3, e4]
      exact ⟨hple, hper1, hper2, hpost1, hpost2, hper3⟩

/-- C4, witness: at target 1000000 ns the achieved value is nonzero and the
theorem applies. -/
theorem find_scalers_time_reproducible_witness :
    1000000 ≤ MAX_TIME_NS ∧ 0 < (find_scalers_time 1000000).1 ∧
      ∃ pre post per,
        (find_scalers_time 1000000).2 = some (pre, post, per) ∧
        (find_scalers_time 1000000).1 = timeFor pre (per + 1) (post + 1) ∧
        (find_scalers_time 1000000).1 =
          PS_PER_TICK * 2 ^ pre * (per + 1) * (post + 1) / 1000 ∧
        pre ≤ 7 ∧ post ≤ 15 ∧ per ≤ 255 ∧
        validCombo pre (per + 1) (post + 1) :=
  ⟨by decide, by decide,
    find_scalers_time_reproducible 1000000 (by decide) (by decide)⟩

/-! ## Claim C5 -/

/-- C5, counterexample: the claim says a search that finds no valid
combination returns zero achieved time with all-zero dividers.  At target 0
(in range) the derived period is 0 for every (postscale, prescale) pair, so
no valid combination exists, and the achieved time is indeed 0 — but the
stored dividers are prescale 0, postscale 255, period 255, because the code
stores `postscale_best - 1` and `period_best - 1` from the all-zero
accumulator and the 8-bit subtraction wraps 0 − 1 to 255. -/
theorem find_scalers_time_zero_divs_wrap :
    candTriples (tickCount 0) = [] ∧
      find_scalers_time 0 = (0, some (0, 255, 255)) ∧
      (find_scalers_time 0).2 ≠ some (0, 0, 0) := by
  refine ⟨by decide, by decide, by decide⟩

/-- C5 (amended): when the search of an in-range target derives no valid
combination at all, the achieved time is zero and the stored dividers are
prescale 0, postscale 255 and period 255 (the 8-bit wraparound of 0 − 1),
not all-zero. -/
theorem find_scalers_time_no_valid (target : ℕ) (ht : target ≤ MAX_TIME_NS)
    (hempty : candTriples (tickCount target) = []) :
    find_scalers_time target = (0, some (0, 255, 255)) := by
  have hfind := find_scalers_time_in_range target ht
  rcases foldl_inner_shape target (tickCount target) postscaleList initScaler
    with h | ⟨post, hpost, p, hp, hv, h⟩
  · have hsearch : searchScalers target (tickCount target) = initScaler := h
    rw [hfind, hsearch]
    rfl
  · exfalso
    have hmem : (p, periodFor (tickCount target / post) p, post) ∈
        candTriples (tickCount target) :=
      (mem_candTriples _ _).mpr ⟨post, hpost, p, hp, hv, rfl⟩
    rw [hempty] at hmem
    exact List.not_mem_nil _ hmem

/-- C5, witness: target 0 is in range and derives no valid combination. -/
theorem find_scalers_time_no_valid_witness :
    0 ≤ MAX_TIME_NS ∧ candTriples (tickCount 0) = [] ∧
      find_scalers_time 0 = (0, some (0, 255, 255)) :=
  ⟨by decide, by decide, find_scalers_time_no_valid 0 (by decide) (by decide)⟩

/-! ## Program and peripheral state

The global variables of `main_hardware_trigger.c` together with the timer,
interrupt and CLC registers the code touches.  Registers hold byte values as
`Nat`; single-bit flags are `Bool`. -/

structure MachState where
  trigger_mode : ℕ
  strobe_enabled : ℕ
  cam_read_time_us : ℕ
  TMR1IE : Bool
  TMR1IF : Bool
  T1GGO : Bool
  IOCIE : Bool
  IOCIF : Bool
  PEIE : Bool
  SSP1IE : Bool
  SSP1IF : Bool
  TMR2 : ℕ
  T2CON : ℕ
  T4CON : ℕ
  PR2 : ℕ
  PR4 : ℕ
  LC3G3POL : Bool
deriving Repr, DecidableEq

/-- Write bit 7 of a byte register, preserving the rest (how a
`TxCONbits.TxON = v` bitfield store compiles). -/
def setBit7 (reg : ℕ) (b : Bool) : ℕ := reg &&& 127 ||| (if b then 128 else 0)

/-- Bit 7 of a byte register (`T2CONbits.T2ON` / `T4CONbits.T4ON`). -/
def bit7 (reg : ℕ) : Bool := reg.testBit 7

/-- `set_strobe_enable` (lines 121-138).  The `T2ON` bitfield store keeps the
low bit of `enable` (main only ever passes 0 or 1). -/
def set_strobe_enable (enable : ℕ) (s : MachState) : MachState :=
  let s1 := {s with strobe_enabled := if enable ≠ 0 then 1 else 0}
  if s1.trigger_mode = 0 then
    {s1 with
      T2CON := setBit7 s1.T2CON (decide (enable % 2 = 1))
      T4CON := setBit7 s1.T4CON true}
  else
    {s1 with T2CON := setBit7 s1.T2CON false, T4CON := setBit7 s1.T4CON true}

/-- `set_strobe_hold` (lines 140-144): `LC3G3POL = hold ? 1 : 0`. -/
def set_strobe_hold (hold : ℕ) (s : MachState) : MachState :=
  {s with LC3G3POL := decide (hold ≠ 0)}

/-- `set_strobe_timing` (lines 146-173).  `jw`/`jd` are the values of the
uninitialized local output variables (`wait_prescale`, ...): when
`find_scalers_time` takes its early return it does not write its output
pointers, so the locals keep whatever was on the stack; `Option.getD`
reproduces exactly that.  Returns the new state and the achieved
(wait, duration) values the function stores back through its in/out pointers.
The transient `T4CON = 0` window is modelled by `set_strobe_timing_trace`
below; this function gives the state after the call returns. -/
def set_strobe_timing (jw jd : ℕ × ℕ × ℕ) (s : MachState)
    (wait_target_ns duration_target_ns : ℕ) : MachState × ℕ × ℕ :=
  let rW := find_scalers_time wait_target_ns
  let rD := find_scalers_time duration_target_ns
  let ow := rW.2.getD jw
  let od := rD.2.getD jd
  if 0 < rW.1 ∧ 0 < rD.1 then
    ({s with
        PR2 := ow.2.2
        PR4 := od.2.2
        T2CON := s.T2CON &&& 128 ||| ow.1 <<< 4 ||| ow.2.1
        T4CON := s.T4CON &&& 128 ||| od.1 <<< 4 ||| od.2.1}, rW.1, rD.1)
  else (s, rW.1, rD.1)

/-- The sequence of machine states `set_strobe_timing` passes through, one
entry per register store of lines 163-171: entry, after `T4CON = 0`, after
`PR2 = ...`, after `PR4 = ...`, after `T2CON = ...`, after the final
`T4CON = (t4con_copy & 0b10000000) | ...` restore. -/
def set_strobe_timing_trace (jw jd : ℕ × ℕ × ℕ) (s : MachState)
    (wait_target_ns duration_target_ns : ℕ) : List MachState :=
  let rW := find_scalers_time wait_target_ns
  let rD := find_scalers_time duration_target_ns
  let ow := rW.2.getD jw
  let od := rD.2.getD jd
  if 0 < rW.1 ∧ 0 < rD.1 then
    let s1 := {s with T4CON := 0}
    let s2 := {s1 with PR2 := ow.2.2}
    let s3 := {s2 with PR4 := od.2.2}
    let s4 := {s3 with T2CON := s.T2CON &&& 128 ||| ow.1 <<< 4 ||| ow.2.1}
    let s5 := {s4 with T4CON := s.T4CON &&& 128 ||| od.1 <<< 4 ||| od.2.1}
    [s, s1, s2, s3, s4, s5]
  else [s]

/-- `set_trigger_mode` (lines 176-195). -/
def set_trigger_mode (mode : ℕ) (s : MachState) : MachState :=
  let s1 := {s with trigger_mode := if mode = 1 then 1 else 0}
  if s1.trigger_mode = 1 then {s1 with TMR1IE := true, TMR1IF := false}
  else {s1 with TMR1IE := false}

/-- Modelled from the spec: `TMR1_StartSinglePulseAcquisition` is part of the
vendor timer library (not under src/); the spec describes it as the
gate-capture start primitive that re-arms single-pulse acquisition for the
next edge, i.e. it sets the gate-acquisition GO flag `T1GGO`. -/
def TMR1_StartSinglePulseAcquisition (s : MachState) : MachState :=
  {s with T1GGO := true}

/-- `hardware_trigger_strobe` (lines 202-215). -/
def hardware_trigger_strobe (s : MachState) : MachState :=
  if s.strobe_enabled ≠ 0 ∧ s.trigger_mode = 1 then
    TMR1_StartSinglePulseAcquisition
      {s with TMR2 := 0, T2CON := setBit7 s.T2CON true}
  else s

/-- Modelled from the spec: the interrupt-on-change pin handler is part of
the out-of-scope transport/GPIO layer (not under src/); it touches none of
the strobe state and is modelled as the identity.  It is not reached under
the gate-edge hypotheses used below. -/
def PIN_MANAGER_IOC (s : MachState) : MachState := s

/-- Modelled from the spec: the SPI interrupt service routine belongs to the
out-of-scope byte-transport layer (not under src/); modelled as the identity.
It is not reached under the gate-edge hypotheses used below. -/
def SPI1_ISR (s : MachState) : MachState := s

/-- `INTERRUPT_InterruptManager`
(interrupt_manager_hardware_trigger.c lines 19-56). -/
def INTERRUPT_InterruptManager (s : MachState) : MachState :=
  if s.IOCIE = true ∧ s.IOCIF = true then PIN_MANAGER_IOC s
  else if s.PEIE = true then
    if s.TMR1IE = true ∧ s.TMR1IF = true then
      let s1 := {s with TMR1IF := false}
      if s1.T1GGO = false then
        TMR1_StartSinglePulseAcquisition (hardware_trigger_strobe s1)
      else s1
    else if s.SSP1IE = true ∧ s.SSP1IF = true then SPI1_ISR s
    else s
  else s

/-! ## Command dispatcher (main, lines 241-325) -/

/-- Modelled from the spec: the status codes come from `common.h`, which is
not under src/; the spec fixes OK = 0. -/
def ERR_OK : ℕ := 0

/-- Modelled from the spec: the invalid-packet status from `common.h` (not
under src/) is some nonzero byte; the exact value is immaterial to the
claims. -/
def ERR_PACKET_INVALID : ℕ := 1

/-- Little-endian 32-bit read at a byte offset
(`*(uint32_t *)&packet_data[off]`). -/
def le32 (l : List ℕ) (off : ℕ) : ℕ :=
  l.getD off 0 + 256 * l.getD (off + 1) 0 + 65536 * l.getD (off + 2) 0 +
    16777216 * l.getD (off + 3) 0

/-- Little-endian 32-bit store into a response buffer. -/
def le32bytes (n : ℕ) : List ℕ :=
  [n % 256, n / 256 % 256, n / 65536 % 256, n / 16777216 % 256]

/-- Little-endian 16-bit store into a response buffer. -/
def le16bytes (n : ℕ) : List ℕ := [n % 256, n / 256 % 256]

/-- One iteration of main's packet `switch` (lines 245-324): given a received
packet (type, payload bytes, declared payload size) and the current state,
produce the next state and the response written with `spi_packet_write`
(packet type plus payload bytes), `none` when no response is sent (type 0 and
unrecognized types).  `jw`/`jd` are the stack junk for `set_strobe_timing`'s
uninitialized locals. -/
def dispatch (jw jd : ℕ × ℕ × ℕ) (s : MachState) (ptype : ℕ)
    (pdata : List ℕ) (psize : ℕ) : MachState × Option (ℕ × List ℕ) :=
  if ptype = 0 then (s, none)
  else if ptype = 1 then
    if psize = 1 then
      (set_strobe_enable (if pdata.getD 0 0 ≠ 0 then 1 else 0) s,
        some (ptype, [ERR_OK]))
    else (s, some (ptype, [ERR_PACKET_INVALID]))
  else if ptype = 2 then
    if psize = 8 then
      let r := set_strobe_timing jw jd s (le32 pdata 0) (le32 pdata 4)
      (r.1, some (ptype, ERR_OK :: (le32bytes r.2.1 ++ le32bytes r.2.2)))
    else (s, some (ptype, [ERR_PACKET_INVALID]))
  else if ptype = 3 then
    if psize = 1 then
      (set_strobe_hold (if pdata.getD 0 0 ≠ 0 then 1 else 0) s,
        some (ptype, [ERR_OK]))
    else (s, some (ptype, [ERR_PACKET_INVALID]))
  else if ptype = 4 then
    if psize = 0 then
      (s, some (ptype, ERR_OK :: le16bytes s.cam_read_time_us))
    else (s, some (ptype, [ERR_PACKET_INVALID]))
  else if ptype = 5 then
    if psize = 1 then
      (set_trigger_mode (if pdata.getD 0 0 ≠ 0 then 1 else 0) s,
        some (ptype, [ERR_OK]))
    else (s, some (ptype, [ERR_PACKET_INVALID]))
  else (s, none)

/-- The payload size each recognized command expects (spec section 6). -/
def expectedSize (ptype : ℕ) : ℕ :=
  if ptype = 2 then 8 else if ptype = 4 then 0 else 1

/-- Writing bit 7 leaves exactly that bit set or clear. -/
lemma bit7_setBit7 (r : ℕ) (b : Bool) : bit7 (setBit7 r b) = b := by
  have h127 : Nat.testBit 127 7 = false := by decide
  have h128 : Nat.testBit 128 7 = true := by decide
  have h0 : Nat.testBit 0 7 = false := by decide
  cases b <;>
    simp [bit7, setBit7, Nat.testBit_lor, Nat.testBit_land, h127, h128, h0]

/-- If either solve came back zero, `set_strobe_timing` leaves the state
untouched (shared by the C3 and C10 theorems). -/
lemma set_strobe_timing_reject (jw jd : ℕ × ℕ × ℕ) (s : MachState)
    (wt dt : ℕ)
    (h : (set_strobe_timing jw jd s wt dt).2.1 = 0 ∨
      (set_strobe_timing jw jd s wt dt).2.2 = 0) :
    (set_strobe_timing jw jd s wt dt).1 = s := by
  simp only [set_strobe_timing] at h ⊢
  by_cases hc : 0 < (find_scalers_time wt).1 ∧ 0 < (find_scalers_time dt).1
  · rw [if_pos hc] at h
    dsimp only at h
    omega
  · rw [if_neg hc]

/-- An all-zero machine state, used to instantiate witnesses. -/
def sampleState : MachState where
  trigger_mode := 0
  strobe_enabled := 0
  cam_read_time_us := 0
  TMR1IE := false
  TMR1IF := false
  T1GGO := false
  IOCIE := false
  IOCIF := false
  PEIE := false
  SSP1IE := false
  SSP1IF := false
  TMR2 := 0
  T2CON := 0
  T4CON := 0
  PR2 := 0
  PR4 := 0
  LC3G3POL := false

/-! ## Claim C3 -/

/-- C3: `set_strobe_timing` is all-or-nothing.  Whenever either solve comes
back zero, the whole machine state (in particular PR2, PR4, T2CON, T4CON) is
exactly its pre-call value; the state differs from the pre-call state only
when both achieved values are nonzero, and in that case the divider
registers of both timers receive the solver outputs (with each timer's ON
bit, bit 7, preserved from before the call). -/
theorem set_strobe_timing_atomic (jw jd : ℕ × ℕ × ℕ) (s : MachState)
    (wt dt : ℕ) :
    ((set_strobe_timing jw jd s wt dt).2.1 = 0 ∨
        (set_strobe_timing jw jd s wt dt).2.2 = 0 →
      (set_strobe_timing jw jd s wt dt).1 = s) ∧
      ((set_strobe_timing jw jd s wt dt).1 ≠ s →
        0 < (set_strobe_timing jw jd s wt dt).2.1 ∧
          0 < (set_strobe_timing jw jd s wt dt).2.2) ∧
      (0 < (set_strobe_timing jw jd s wt dt).2.1 ∧
          0 < (set_strobe_timing jw jd s wt dt).2.2 →
        (set_strobe_timing jw jd s wt dt).1 =
          {s with
            PR2 := ((find_scalers_time wt).2.getD jw).2.2
            PR4 := ((find_scalers_time dt).2.getD jd).2.2
            T2CON := s.T2CON &&& 128 |||
              ((find_scalers_time wt).2.getD jw).1 <<< 4 |||
              ((find_scalers_time wt).2.getD jw).2.1
            T4CON := s.T4CON &&& 128 |||
              ((find_scalers_time dt).2.getD jd).1 <<< 4 |||
              ((find_scalers_time dt).2.getD jd).2.1}) := by
  refine ⟨set_strobe_timing_reject jw jd s wt dt, ?_, ?_⟩
  · intro hne
    by_contra hnot
    have h : (set_strobe_timing jw jd s wt dt).2.1 = 0 ∨
        (set_strobe_timing jw jd s wt dt).2.2 = 0 := by omega
    exact hne (set_strobe_timing_reject jw jd s wt dt h)
  · intro hc
    have hc' : 0 < (find_scalers_time wt).1 ∧ 0 < (find_scalers_time dt).1 := by
      simp only [set_strobe_timing] at hc
      by_cases h : 0 < (find_scalers_time wt).1 ∧ 0 < (find_scalers_time dt).1
      · exact h
      · rw [if_neg h] at hc
        exact absurd hc h
    simp only [set_strobe_timing]
    rw [if_pos hc']

/-- C3, witness: a wait target of 1000000 ns solves, a duration target of
16384000 ns is out of range and solves to zero, and the state is exactly the
pre-call state. -/
theorem set_strobe_timing_atomic_witness :
    (set_strobe_timing (0, 0, 0) (0, 0, 0) sampleState 1000000 16384000).2.2 = 0 ∧
      0 < (set_strobe_timing (0, 0, 0) (0, 0, 0) sampleState 1000000 16384000).2.1 ∧
      (set_strobe_timing (0, 0, 0) (0, 0, 0) sampleState 1000000 16384000).1 =
        sampleState :=
  ⟨by decide, by decide,
    (set_strobe_timing_atomic (0, 0, 0) (0, 0, 0) sampleState 1000000
      16384000).1 (Or.inr (by decide))⟩

/-! ## Claim C6 -/

/-- C6: one gate-edge event (TMR1 gate interrupt pending and taken, single
pulse acquisition complete, no interrupt-on-change pending).  If the strobe
is disabled or the trigger mode is not hardware, the wait timer is untouched
(TMR2 and T2CON keep their values); if the strobe is enabled in hardware
mode, the single invocation resets TMR2 to 0 and sets the wait timer's ON
bit; in both cases gate capture is re-armed (`T1GGO` set) for the next
edge.  One edge causes exactly one invocation of this handler, so the reset
and start happen exactly once per edge. -/
theorem gate_edge_wait_timer (s : MachState)
    (hioc : ¬(s.IOCIE = true ∧ s.IOCIF = true)) (hpeie : s.PEIE = true)
    (hie : s.TMR1IE = true) (hif : s.TMR1IF = true)
    (hggo : s.T1GGO = false) :
    ((s.strobe_enabled = 0 ∨ s.trigger_mode ≠ 1) →
      (INTERRUPT_InterruptManager s).TMR2 = s.TMR2 ∧
        (INTERRUPT_InterruptManager s).T2CON = s.T2CON) ∧
      (s.strobe_enabled ≠ 0 → s.trigger_mode = 1 →
        (INTERRUPT_InterruptManager s).TMR2 = 0 ∧
          bit7 (INTERRUPT_InterruptManager s).T2CON = true) ∧
      (INTERRUPT_InterruptManager s).T1GGO = true := by
  have hred : INTERRUPT_InterruptManager s =
      TMR1_StartSinglePulseAcquisition
        (hardware_trigger_strobe {s with TMR1IF := false}) := by
    unfold INTERRUPT_InterruptManager
    rw [if_neg hioc, if_pos hpeie, if_pos ⟨hie, hif⟩]
    dsimp only
    rw [if_pos hggo]
  rw [hred]
  unfold hardware_trigger_strobe
  dsimp only
  by_cases hcond : s.strobe_enabled ≠ 0 ∧ s.trigger_mode = 1
  · rw [if_pos hcond]
    refine ⟨?_, ?_, rfl⟩
    · intro hdis
      exact absurd hcond (by tauto)
    · intro _ _
      exact ⟨rfl, bit7_setBit7 s.T2CON true⟩
  · rw [if_neg hcond]
    refine ⟨fun _ => ⟨rfl, rfl⟩, ?_, rfl⟩
    intro hen hmode
    exact absurd ⟨hen, hmode⟩ hcond

/-- C6, witness: enabled hardware-mode state with a pending gate edge. -/
def gateEdgeState : MachState :=
  {sampleState with
    trigger_mode := 1
    strobe_enabled := 1
    PEIE := true
    TMR1IE := true
    TMR1IF := true
    T1GGO := false}

/-- C6, witness: at `gateEdgeState` the edge starts the wait timer and
re-arms capture. -/
theorem gate_edge_wait_timer_witness :
    (INTERRUPT_InterruptManager gateEdgeState).TMR2 = 0 ∧
      bit7 (INTERRUPT_InterruptManager gateEdgeState).T2CON = true ∧
      (INTERRUPT_InterruptManager gateEdgeState).T1GGO = true := by
  have h := gate_edge_wait_timer gateEdgeState (by decide) (by decide)
    (by decide) (by decide) (by decide)
  exact ⟨(h.2.1 (by decide) (by decide)).1, (h.2.1 (by decide) (by decide)).2,
    h.2.2⟩

/-! ## Claim C7 -/

/-- C7: `set_trigger_mode` entering hardware mode (mode 1) enables the
gate-capture interrupt (`TMR1IE`) and clears any pending flag (`TMR1IF`);
entering software mode (any other value, from any prior state, including
hardware mode with a wait cycle pending) leaves the gate interrupt disabled;
in both directions the strobe enable state is unchanged. -/
theorem set_trigger_mode_gate_interrupt (s : MachState) (m : ℕ) :
    (m = 1 → (set_trigger_mode m s).TMR1IE = true ∧
      (set_trigger_mode m s).TMR1IF = false ∧
      (set_trigger_mode m s).trigger_mode = 1) ∧
      (m ≠ 1 → (set_trigger_mode m s).TMR1IE = false ∧
        (set_trigger_mode m s).trigger_mode = 0) ∧
      (set_trigger_mode m s).strobe_enabled = s.strobe_enabled := by
  by_cases hm : m = 1 <;>
    simp [set_trigger_mode, hm]

/-- C7, witness: switching to hardware mode from the all-zero state. -/
theorem set_trigger_mode_gate_interrupt_witness :
    (set_trigger_mode 1 sampleState).TMR1IE = true ∧
      (set_trigger_mode 1 sampleState).TMR1IF = false ∧
      (set_trigger_mode 1 sampleState).trigger_mode = 1 :=
  (set_trigger_mode_gate_interrupt sampleState 1).1 rfl

/-! ## Claim C8 -/

/-- C8: for every recognized command type whose declared payload size is not
the expected size (1 for SET_STROBE_ENABLE, SET_STROBE_HOLD and
SET_TRIGGER_MODE; 8 for SET_STROBE_TIMING; 0 for GET_CAM_READ_TIME), the
dispatcher replies with the invalid-packet status byte and the machine state
is completely unchanged. -/
theorem dispatch_size_mismatch (jw jd : ℕ × ℕ × ℕ) (s : MachState)
    (ptype : ℕ) (pdata : List ℕ) (psize : ℕ)
    (hpt : ptype ∈ ([1, 2, 3, 4, 5] : List ℕ))
    (hsz : psize ≠ expectedSize ptype) :
    dispatch jw jd s ptype pdata psize =
      (s, some (ptype, [ERR_PACKET_INVALID])) := by
  fin_cases hpt <;> simp_all [dispatch, expectedSize]

/-- C8, witness: a SET_STROBE_TIMING packet with a 3-byte payload is
rejected without touching the state. -/
theorem dispatch_size_mismatch_witness :
    (3 : ℕ) ≠ expectedSize 2 ∧
      dispatch (0, 0, 0) (0, 0, 0) sampleState 2 [] 3 =
        (sampleState, some (2, [ERR_PACKET_INVALID])) :=
  ⟨by decide,
    dispatch_size_mismatch (0, 0, 0) (0, 0, 0) sampleState 2 [] 3 (by decide)
      (by decide)⟩

/-! ## Claim C9 -/

/-- C9 (evidence of the defect): along the entire register-write sequence of
`set_strobe_timing` — including the window in which `T4CON` has been zeroed
and the dividers are half-written — the gate interrupt enable `TMR1IE` and
the peripheral interrupt master enable `PEIE` keep their pre-call values.
The function never disables the gate interrupt source, so nothing prevents
the TMR1 gate interrupt from preempting the update and starting the wait
timer on a half-written configuration, contrary to the claim. -/
theorem set_strobe_timing_never_masks_gate (jw jd : ℕ × ℕ × ℕ)
    (s : MachState) (wt dt : ℕ) :
    ((set_strobe_timing_trace jw jd s wt dt).all
      fun s' => s'.TMR1IE == s.TMR1IE && s'.PEIE == s.PEIE) = true := by
  simp only [set_strobe_timing_trace]
  split <;> simp [List.all]

/-! ## Claim C10 -/

/-- C10: an 8-byte SET_STROBE_TIMING request always gets status OK: the
response is the OK byte followed by the two achieved values, regardless of
whether the solves succeeded; when either achieved value is zero the state
(and so every timer register) is unchanged, so a rejected update is visible
to the host only through the zero achieved values in the response. -/
theorem dispatch_timing_status_ok (jw jd : ℕ × ℕ × ℕ) (s : MachState)
    (pdata : List ℕ) :
    dispatch jw jd s 2 pdata 8 =
      ((set_strobe_timing jw jd s (le32 pdata 0) (le32 pdata 4)).1,
        some (2, ERR_OK ::
          (le32bytes
              (set_strobe_timing jw jd s (le32 pdata 0) (le32 pdata 4)).2.1 ++
            le32bytes
              (set_strobe_timing jw jd s (le32 pdata 0) (le32 pdata 4)).2.2))) ∧
      ((set_strobe_timing jw jd s (le32 pdata 0) (le32 pdata 4)).2.1 = 0 ∨
        (set_strobe_timing jw jd s (le32 pdata 0) (le32 pdata 4)).2.2 = 0 →
        (set_strobe_timing jw jd s (le32 pdata 0) (le32 pdata 4)).1 = s) := by
  refine ⟨?_, set_strobe_timing_reject jw jd s _ _⟩
  simp [dispatch]

/-- C10, witness: payload requesting wait 1000000 ns and duration 16384000
ns (unachievable) — the duration solve is zero and the state is unchanged,
while the status byte is still OK. -/
theorem dispatch_timing_status_ok_witness :
    le32 [64, 66, 15, 0, 0, 0, 250, 0] 4 = 16384000 ∧
      (set_strobe_timing (0, 0, 0) (0, 0, 0) sampleState
        (le32 [64, 66, 15, 0, 0, 0, 250, 0] 0)
        (le32 [64, 66, 15, 0, 0, 0, 250, 0] 4)).2.2 = 0 ∧
      (set_strobe_timing (0, 0, 0) (0, 0, 0) sampleState
        (le32 [64, 66, 15, 0, 0, 0, 250, 0] 0)
        (le32 [64, 66, 15, 0, 0, 0, 250, 0] 4)).1 = sampleState :=
  ⟨by decide, by decide,
    (dispatch_timing_status_ok (0, 0, 0) (0, 0, 0) sampleState
      [64, 66, 15, 0, 0, 0, 250, 0]).2 (Or.inr (by decide))⟩

end Rio
